import Mathlib

/-!
Shallow embedding of `src/Amiga/sonicconv.c`, the SonicArranger packed
format converter, and proofs about its conversion pipeline.

The source platform is the Amiga (68k): all multi-byte integers are
big-endian, `long` is a signed 32-bit integer and `short` a signed
16-bit integer.  The input file lives in memory as a byte buffer; we
model it as a `List Nat` of byte values and pointers as `Int` offsets
into that buffer (a null pointer is `Option.none`).  C `long`
arithmetic on offsets and lengths is modelled on `Int`; `long`
division truncates toward zero, which is `Int.tdiv`.
-/

set_option linter.unusedVariables false

/-- One byte of the buffer at an `Int` offset; reads outside the
buffer yield 0 (they are undefined behaviour in the C source and are
kept in bounds by hypotheses wherever a theorem depends on them). -/
def readByte (dat : List Nat) (off : Int) : Nat :=
  if 0 ≤ off then dat.getD off.toNat 0 else 0

/-- Big-endian unsigned 16-bit read: the C expression
`*((unsigned short*)(dat + off))` on the 68k. -/
def read_u16 (dat : List Nat) (off : Int) : Nat :=
  readByte dat off * 256 + readByte dat (off + 1)

/-- Big-endian unsigned 32-bit read of the four bytes at `off`. -/
def read_u32 (dat : List Nat) (off : Int) : Nat :=
  readByte dat off * 16777216 + readByte dat (off + 1) * 65536 +
    readByte dat (off + 2) * 256 + readByte dat (off + 3)

/-- Two's-complement value of a 32-bit word (a C `long`). -/
def toSigned32 (n : Nat) : Int :=
  if n < 2147483648 then (n : Int) else (n : Int) - 4294967296

/-- Two's-complement value of a 16-bit word (a C `short`). -/
def toSigned16 (n : Nat) : Int :=
  if n < 32768 then (n : Int) else (n : Int) - 65536

/-- Signed 32-bit read: the C expression `*((long *)(dat + off))`. -/
def read_s32 (dat : List Nat) (off : Int) : Int :=
  toSigned32 (read_u32 dat off)

/-- The signature test of `findsong` at a candidate offset: the first
32-bit value equals 0x28 and the second lies strictly between it and
0x400 (`*p1 == 0x28 && *p2 > *p1 && *p2 < 0x400`). -/
def songSig (dat : List Nat) (off : Int) : Prop :=
  read_s32 dat off = 0x28 ∧ read_s32 dat off < read_s32 dat (off + 4) ∧
    read_s32 dat (off + 4) < 0x400

instance songSigDecidable (dat : List Nat) (off : Int) : Decidable (songSig dat off) :=
  inferInstanceAs (Decidable (read_s32 dat off = 0x28 ∧
    read_s32 dat off < read_s32 dat (off + 4) ∧ read_s32 dat (off + 4) < 0x400))

/-- The scan loop of `findsong`: `for(offset = 0; offset < max_offset;
offset += 2)` testing `songSig` at each step.  The `fuel` argument
bounds the number of iterations; `findsong` passes enough fuel for the
loop to run to its bound. -/
def findsongLoop (dat : List Nat) (maxOff : Int) : Int → Nat → Int
  | _, 0 => -1
  | off, fuel + 1 =>
    if off < maxOff then
      if songSig dat off then off else findsongLoop dat maxOff (off + 2) fuel
    else -1

/-- `findsong(data, size)`: scan even offsets below `size - 0x28` for
the song-data signature; `-1` means not found. -/
def findsong (dat : List Nat) (size : Int) : Int :=
  findsongLoop dat (size - 0x28) 0 size.toNat

/-- The eight section offsets, seven section lengths and eight element
counts computed by `convert` after the song data has been located. -/
structure Layout where
  song_offset : Int
  over_offset : Int
  note_offset : Int
  instr_offset : Int
  wave_offset : Int
  adsr_offset : Int
  amf_offset : Int
  sample_offset : Int
  song_len : Int
  over_len : Int
  note_len : Int
  instr_len : Int
  wave_len : Int
  adsr_len : Int
  amf_len : Int
  song_cnt : Int
  over_cnt : Int
  note_cnt : Int
  instr_cnt : Int
  wave_cnt : Int
  adsr_cnt : Int
  amf_cnt : Int
  sample_cnt : Int
deriving DecidableEq

/-- Lines 124-150 of `convert`: read the eight relative offsets stored
at the anchor, make them absolute, take consecutive differences as
lengths, divide by the fixed record sizes (C `long` division truncates
toward zero, hence `Int.tdiv`), and read the sample count directly
from the start of the sample section. -/
def resolveLayout (dat : List Nat) (offset : Int) : Layout :=
  let song_offset := offset + read_s32 dat offset
  let over_offset := offset + read_s32 dat (offset + 4)
  let note_offset := offset + read_s32 dat (offset + 8)
  let instr_offset := offset + read_s32 dat (offset + 12)
  let wave_offset := offset + read_s32 dat (offset + 16)
  let adsr_offset := offset + read_s32 dat (offset + 20)
  let amf_offset := offset + read_s32 dat (offset + 24)
  let sample_offset := offset + read_s32 dat (offset + 28)
  let song_len := over_offset - song_offset
  let over_len := note_offset - over_offset
  let note_len := instr_offset - note_offset
  let instr_len := wave_offset - instr_offset
  let wave_len := adsr_offset - wave_offset
  let adsr_len := amf_offset - adsr_offset
  let amf_len := sample_offset - amf_offset
  { song_offset := song_offset, over_offset := over_offset, note_offset := note_offset,
    instr_offset := instr_offset, wave_offset := wave_offset, adsr_offset := adsr_offset,
    amf_offset := amf_offset, sample_offset := sample_offset,
    song_len := song_len, over_len := over_len, note_len := note_len,
    instr_len := instr_len, wave_len := wave_len, adsr_len := adsr_len, amf_len := amf_len,
    song_cnt := Int.tdiv song_len 12, over_cnt := Int.tdiv over_len 16,
    note_cnt := Int.tdiv note_len 4, instr_cnt := Int.tdiv instr_len 152,
    wave_cnt := Int.tdiv wave_len 128, adsr_cnt := Int.tdiv adsr_len 128,
    amf_cnt := Int.tdiv amf_len 128, sample_cnt := read_s32 dat sample_offset }

/-- The `sample_info` struct: per-sample data gathered before writing.
`name_from_instr` is a pointer into the buffer (the 30-byte name field
of the referencing instrument record); `none` models the null pointer
left by `memset(samples_info, 0, ...)`. -/
structure sample_info where
  length : Int
  length_from_instr : Int
  repeat_from_instr : Int
  name_from_instr : Option Int
deriving DecidableEq

/-- The zero-initialised `sample_info` produced by `memset(..., 0, ...)`. -/
def sampleInfoInit : sample_info :=
  { length := 0, length_from_instr := 0, repeat_from_instr := 0, name_from_instr := none }

/-- Pass 1 of the metadata join (lines 158-163): read the 32-bit
length list that follows the sample count, storing each in `length`,
and accumulate their sum (`sample_len` in the C source). -/
def pass1 (dat : List Nat) (sample_offset sample_cnt : Int) : List sample_info × Int :=
  let entries := (List.range sample_cnt.toNat).map fun i =>
    { sampleInfoInit with length := read_s32 dat (sample_offset + 4 + (i : Int) * 4) }
  (entries, (entries.map sample_info.length).sum)

/-- The three-field update a sampled-instrument record performs on the
`sample_info` it references (lines 173-175): length and repeat words
from offsets 4 and 6, and a pointer to the 30-byte name at 0x7a. -/
def instrWrite (dat : List Nat) (i_offset : Int) (e : sample_info) : sample_info :=
  { e with
    length_from_instr := (read_u16 dat (i_offset + 4) : Int)
    repeat_from_instr := (read_u16 dat (i_offset + 6) : Int)
    name_from_instr := some (i_offset + 0x7a) }

/-- One iteration of the instrument loop (lines 167-182).  The state
is the `sample_info` array together with the list of instrument
indices reported as having an inconsistent sample id.  A record whose
16-bit discriminant at offset 0 is nonzero is not a sampled instrument
and is skipped; otherwise the signed 16-bit sample id at offset 2 is
range-checked against `sample_cnt` and either the referenced entry is
overwritten or the record is reported and ignored. -/
def pass2Step (dat : List Nat) (instr_offset sample_cnt : Int)
    (st : List sample_info × List Nat) (i : Nat) : List sample_info × List Nat :=
  let i_offset := instr_offset + (i : Int) * 0x98
  if read_u16 dat i_offset = 0 then
    let instr_sample_id := toSigned16 (read_u16 dat (i_offset + 2))
    if 0 ≤ instr_sample_id ∧ instr_sample_id < sample_cnt then
      (st.1.set instr_sample_id.toNat
        (instrWrite dat i_offset (st.1.getD instr_sample_id.toNat sampleInfoInit)), st.2)
    else
      (st.1, st.2 ++ [i])
  else st

/-- Pass 2 of the metadata join: fold the instrument loop over the
given instrument indices (`List.range instr_cnt.toNat` at the call
site, matching `for(i = 0; i < instr_cnt; i++)`). -/
def pass2 (dat : List Nat) (instr_offset sample_cnt : Int) (idxs : List Nat)
    (entries : List sample_info) : List sample_info × List Nat :=
  idxs.foldl (pass2Step dat instr_offset sample_cnt) (entries, [])

/-- Instrument record `i` is a sampled instrument whose in-range
sample id resolves to array index `k`: exactly the condition under
which the loop body of pass 2 overwrites entry `k`. -/
def writesTo (dat : List Nat) (instr_offset sample_cnt : Int) (i k : Nat) : Prop :=
  read_u16 dat (instr_offset + (i : Int) * 0x98) = 0 ∧
  0 ≤ toSigned16 (read_u16 dat (instr_offset + (i : Int) * 0x98 + 2)) ∧
  toSigned16 (read_u16 dat (instr_offset + (i : Int) * 0x98 + 2)) < sample_cnt ∧
  (toSigned16 (read_u16 dat (instr_offset + (i : Int) * 0x98 + 2))).toNat = k

instance writesToDecidable (dat : List Nat) (instr_offset sample_cnt : Int) (i k : Nat) :
    Decidable (writesTo dat instr_offset sample_cnt i k) :=
  inferInstanceAs (Decidable (read_u16 dat (instr_offset + (i : Int) * 0x98) = 0 ∧
    0 ≤ toSigned16 (read_u16 dat (instr_offset + (i : Int) * 0x98 + 2)) ∧
    toSigned16 (read_u16 dat (instr_offset + (i : Int) * 0x98 + 2)) < sample_cnt ∧
    (toSigned16 (read_u16 dat (instr_offset + (i : Int) * 0x98 + 2))).toNat = k))

/-- `fwrite(dat + off, 1, len, f)`: the `len` bytes of the buffer
starting at `off`. -/
def extract (dat : List Nat) (off len : Int) : List Nat :=
  (dat.drop off.toNat).take len.toNat

/-- The four memory bytes of a C `long`, big-endian two's complement:
what `fwrite(&v, 1, 4, f)` emits on the 68k. -/
def bytes32 (v : Int) : List Nat :=
  let n := (Int.emod v 4294967296).toNat
  [n / 16777216 % 256, n / 65536 % 256, n / 256 % 256, n % 256]

def SOAR_ID : List Nat := [0x53, 0x4F, 0x41, 0x52, 0x56, 0x31, 0x2E, 0x30]
def STBL_ID : List Nat := [0x53, 0x54, 0x42, 0x4C]
def OVTB_ID : List Nat := [0x4F, 0x56, 0x54, 0x42]
def NTBL_ID : List Nat := [0x4E, 0x54, 0x42, 0x4C]
def INST_ID : List Nat := [0x49, 0x4E, 0x53, 0x54]
def SD8B_ID : List Nat := [0x53, 0x44, 0x38, 0x42]
def SYWT_ID : List Nat := [0x53, 0x59, 0x57, 0x54]
def SYAR_ID : List Nat := [0x53, 0x59, 0x41, 0x52]
def SYAF_ID : List Nat := [0x53, 0x59, 0x41, 0x46]
def EDAT_ID : List Nat := [0x45, 0x44, 0x41, 0x54, 0x56, 0x31, 0x2E, 0x31]
def EDAT_DATA : List Nat := [0, 1, 0, 1, 0, 0, 0, 0x7B, 0, 0, 0, 0, 0, 1, 0, 3]

/-- A plain tagged section as the writer emits it: 4-byte tag, 4-byte
count, then the section's raw bytes copied from the buffer. -/
def taggedSection (dat : List Nat) (tag : List Nat) (cnt off len : Int) : List Nat :=
  tag ++ bytes32 cnt ++ extract dat off len

/-- Dereferencing a `sample_info` name pointer for the 30-byte name
write (`fwrite(info.name_from_instr, 1, 30, f)`); `none` is the null
pointer, whose dereference is undefined behaviour in the C source. -/
def nameView (dat : List Nat) (e : sample_info) : Option (List Nat) :=
  e.name_from_instr.map fun p => extract dat p 30

/-- The name loop of the writer (lines 222-224): 30 bytes per sample,
in order; it fails (undefined behaviour in C) as soon as an entry's
name pointer is null. -/
def namesChunk (dat : List Nat) : List sample_info → Option (List Nat)
  | [] => some []
  | e :: es =>
    match nameView dat e, namesChunk dat es with
    | some v, some rest => some (v ++ rest)
    | _, _ => none

/-- The sample section (lines 213-228): tag, count, the four parallel
per-sample arrays (instrument lengths, instrument repeats, names, raw
lengths), then the raw sample payload copied from the buffer starting
right after the count and length list. -/
def sampleSection (dat : List Nat) (sample_cnt : Int) (entries : List sample_info)
    (sample_offset sample_len : Int) : Option (List Nat) :=
  match namesChunk dat entries with
  | none => none
  | some names =>
    some (SD8B_ID ++ bytes32 sample_cnt
      ++ ((entries.map fun e => bytes32 e.length_from_instr).flatten)
      ++ ((entries.map fun e => bytes32 e.repeat_from_instr).flatten)
      ++ names
      ++ ((entries.map fun e => bytes32 e.length).flatten)
      ++ extract dat (sample_offset + 4 + sample_cnt * 4) sample_len)

/-- The full writer (lines 195-243): magic, the four leading tagged
sections, the sample section, the three trailing tagged sections and
the fixed EDAT block. -/
def writeOutput (dat : List Nat) (L : Layout) (entries : List sample_info)
    (sample_len : Int) : Option (List Nat) :=
  match sampleSection dat L.sample_cnt entries L.sample_offset sample_len with
  | none => none
  | some smp =>
    some (SOAR_ID
      ++ taggedSection dat STBL_ID L.song_cnt L.song_offset L.song_len
      ++ taggedSection dat OVTB_ID L.over_cnt L.over_offset L.over_len
      ++ taggedSection dat NTBL_ID L.note_cnt L.note_offset L.note_len
      ++ taggedSection dat INST_ID L.instr_cnt L.instr_offset L.instr_len
      ++ smp
      ++ taggedSection dat SYWT_ID L.wave_cnt L.wave_offset L.wave_len
      ++ taggedSection dat SYAR_ID L.adsr_cnt L.adsr_offset L.adsr_len
      ++ taggedSection dat SYAF_ID L.amf_cnt L.amf_offset L.amf_len
      ++ EDAT_ID ++ EDAT_DATA)

/-- The writer's output as the specification describes it, spelled out
section by section in the order the claim states. -/
def writerSpecOutput (dat : List Nat) (L : Layout) (entries : List sample_info)
    (names : List Nat) (sample_len : Int) : List Nat :=
  SOAR_ID
  ++ (STBL_ID ++ bytes32 L.song_cnt ++ extract dat L.song_offset L.song_len)
  ++ (OVTB_ID ++ bytes32 L.over_cnt ++ extract dat L.over_offset L.over_len)
  ++ (NTBL_ID ++ bytes32 L.note_cnt ++ extract dat L.note_offset L.note_len)
  ++ (INST_ID ++ bytes32 L.instr_cnt ++ extract dat L.instr_offset L.instr_len)
  ++ (SD8B_ID ++ bytes32 L.sample_cnt
      ++ ((entries.map fun e => bytes32 e.length_from_instr).flatten)
      ++ ((entries.map fun e => bytes32 e.repeat_from_instr).flatten)
      ++ names
      ++ ((entries.map fun e => bytes32 e.length).flatten)
      ++ extract dat (L.sample_offset + 4 + L.sample_cnt * 4) sample_len)
  ++ (SYWT_ID ++ bytes32 L.wave_cnt ++ extract dat L.wave_offset L.wave_len)
  ++ (SYAR_ID ++ bytes32 L.adsr_cnt ++ extract dat L.adsr_offset L.adsr_len)
  ++ (SYAF_ID ++ bytes32 L.amf_cnt ++ extract dat L.amf_offset L.amf_len)
  ++ EDAT_ID ++ EDAT_DATA

/-- Observable outcome of one `convert` run.  `read_short` records
whether the "Read failed" diagnostic was selected (declared size and
bytes read differ); `sample_errors` the instrument indices reported as
having inconsistent sample ids; `output` the bytes written to the
output file, `none` when the song was not found (or a null name
pointer was dereferenced, which is undefined behaviour in C). -/
structure ConvResult where
  read_short : Bool
  song_found : Bool
  sample_errors : List Nat
  output : Option (List Nat)
deriving DecidableEq

/-- The `convert` function from reading the input onward: the short
read is only reported (the C source prints "Read failed" but carries
on), the song is located with `findsong` and checked against
`offset < f_in_size - 28`, the layout is resolved, the two metadata
passes run, and the writer emits the output. -/
def convert (f_in_size read_len : Int) (dat : List Nat) : ConvResult :=
  let read_short := decide (f_in_size ≠ read_len)
  let offset := findsong dat f_in_size
  if 0 ≤ offset ∧ offset < f_in_size - 28 then
    let L := resolveLayout dat offset
    let p1 := pass1 dat L.sample_offset L.sample_cnt
    let joined := pass2 dat L.instr_offset L.sample_cnt (List.range L.instr_cnt.toNat) p1.1
    { read_short := read_short, song_found := true, sample_errors := joined.2,
      output := writeOutput dat L joined.1 p1.2 }
  else
    { read_short := read_short, song_found := false, sample_errors := [], output := none }

/-- 32-bit big-endian encoding of a small constant, used to build
concrete test buffers. -/
def w32 (n : Nat) : List Nat :=
  [n / 16777216 % 256, n / 65536 % 256, n / 256 % 256, n % 256]

/-- A minimal well-formed packed module, 234 bytes: anchor at offset
0 (relative offsets 0x28, 0x34, 0x44, 0x48, 0xE0, 0xE0, 0xE0, 0xE0),
a 12-byte song, 16-byte overview, 4-byte note and one 152-byte
instrument section, empty wave/ADSR/AMF sections, and a sample
section with one sample of 2 payload bytes.  The single instrument
record is a sampled instrument (discriminant 0) referencing sample 0
with length word 5 and repeat word 7. -/
def testBuf : List Nat :=
  w32 0x28 ++ w32 0x34 ++ w32 0x44 ++ w32 0x48 ++ w32 0xE0 ++ w32 0xE0 ++ w32 0xE0 ++ w32 0xE0
    ++ List.replicate 8 0
    ++ List.replicate 12 1
    ++ List.replicate 16 2
    ++ List.replicate 4 3
    ++ ([0, 0, 0, 0, 0, 5, 0, 7] ++ List.replicate 114 0 ++ List.replicate 30 65)
    ++ (w32 1 ++ w32 2 ++ [170, 187])

/-- `testBuf` with the note-section relative offset moved to 0x30, in
front of the overview section's 0x34: the resolved overview length is
the negative value 0x30 - 0x34 = -4. -/
def badBuf : List Nat :=
  w32 0x28 ++ w32 0x34 ++ w32 0x30 ++ w32 0x48 ++ w32 0xE0 ++ w32 0xE0 ++ w32 0xE0 ++ w32 0xE0
    ++ List.replicate 8 0
    ++ List.replicate 12 1
    ++ List.replicate 16 2
    ++ List.replicate 4 3
    ++ ([0, 0, 0, 0, 0, 5, 0, 7] ++ List.replicate 114 0 ++ List.replicate 30 65)
    ++ (w32 1 ++ w32 2 ++ [170, 187])

/-- Characterisation of the scan loop of `findsong`: with enough fuel
to reach the bound, it returns `-1` exactly when no even-aligned
offset in `[off, maxOff)` carries the signature, and otherwise the
first such offset. -/
theorem findsongLoop_spec (dat : List Nat) (maxOff : Int) :
    ∀ (fuel : Nat) (off : Int), maxOff ≤ off + 2 * (fuel : Int) →
      (findsongLoop dat maxOff off fuel = -1 ∧
        ∀ o : Int, off ≤ o → (2 : Int) ∣ (o - off) → o < maxOff → ¬ songSig dat o) ∨
      (off ≤ findsongLoop dat maxOff off fuel ∧
        (2 : Int) ∣ (findsongLoop dat maxOff off fuel - off) ∧
        findsongLoop dat maxOff off fuel < maxOff ∧
        songSig dat (findsongLoop dat maxOff off fuel) ∧
        ∀ o : Int, off ≤ o → (2 : Int) ∣ (o - off) →
          o < findsongLoop dat maxOff off fuel → ¬ songSig dat o) := by
  intro fuel
  induction fuel with
  | zero =>
    intro off hb
    left
    refine ⟨rfl, fun o ho _ holt => ?_⟩
    intro _
    push_cast at hb
    omega
  | succ fuel ih =>
    intro off hb
    by_cases hlt : off < maxOff
    · by_cases hsig : songSig dat off
      · have hres : findsongLoop dat maxOff off (fuel + 1) = off := by
          simp only [findsongLoop]
          rw [if_pos hlt, if_pos hsig]
        right
        rw [hres]
        refine ⟨le_refl off, ⟨0, by ring⟩, hlt, hsig, fun o ho _ holt => ?_⟩
        intro _
        omega
      · have hres : findsongLoop dat maxOff off (fuel + 1) =
            findsongLoop dat maxOff (off + 2) fuel := by
          simp only [findsongLoop]
          rw [if_pos hlt, if_neg hsig]
        have hb2 : maxOff ≤ (off + 2) + 2 * (fuel : Int) := by push_cast at hb ⊢; omega
        rcases ih (off + 2) hb2 with ⟨h1, h2⟩ | ⟨h1, h2, h3, h4, h5⟩
        · left
          refine ⟨by rw [hres]; exact h1, fun o ho hdvd holt => ?_⟩
          rcases eq_or_lt_of_le ho with heq | hgt
          · rw [← heq]; exact hsig
          · exact h2 o (by omega) (by omega) holt
        · right
          rw [hres]
          refine ⟨by omega, by omega, h3, h4, fun o ho hdvd holt => ?_⟩
          rcases eq_or_lt_of_le ho with heq | hgt
          · rw [← heq]; exact hsig
          · exact h5 o (by omega) (by omega) holt
    · left
      have hres : findsongLoop dat maxOff off (fuel + 1) = -1 := by
        simp only [findsongLoop]
        rw [if_neg hlt]
      refine ⟨hres, fun o ho _ holt => ?_⟩
      intro _
      omega

/-- C3: `findsong` scans 2-byte-aligned offsets from 0 up to
`size - 0x28` and returns the first offset whose 32-bit value is 0x28
with the following 32-bit value strictly between 0x28 and 0x400; it
returns -1 (`SignatureNotFoundError`) when no offset before the scan
bound qualifies. -/
theorem findsong_first_signature (dat : List Nat) (size : Int) :
    (findsong dat size = -1 ∧
      ∀ o : Int, 0 ≤ o → (2 : Int) ∣ o → o < size - 0x28 → ¬ songSig dat o) ∨
    (0 ≤ findsong dat size ∧ (2 : Int) ∣ findsong dat size ∧
      findsong dat size < size - 0x28 ∧ songSig dat (findsong dat size) ∧
      ∀ o : Int, 0 ≤ o → (2 : Int) ∣ o → o < findsong dat size → ¬ songSig dat o) := by
  have h := findsongLoop_spec dat (size - 0x28) size.toNat 0 (by omega)
  simpa [findsong] using h

/-- C2: the layout resolver reads eight 32-bit relative offsets at the
anchor, adds the anchor to each, takes consecutive differences as the
seven section lengths, divides by the fixed record sizes 12, 16, 4,
152, 128, 128, 128 for the element counts, and reads the sample count
directly at the sample section's absolute offset. -/
theorem resolveLayout_spec (dat : List Nat) (anchor : Int) :
    ((resolveLayout dat anchor).song_offset = anchor + read_s32 dat (anchor + 0) ∧
     (resolveLayout dat anchor).over_offset = anchor + read_s32 dat (anchor + 4) ∧
     (resolveLayout dat anchor).note_offset = anchor + read_s32 dat (anchor + 8) ∧
     (resolveLayout dat anchor).instr_offset = anchor + read_s32 dat (anchor + 12) ∧
     (resolveLayout dat anchor).wave_offset = anchor + read_s32 dat (anchor + 16) ∧
     (resolveLayout dat anchor).adsr_offset = anchor + read_s32 dat (anchor + 20) ∧
     (resolveLayout dat anchor).amf_offset = anchor + read_s32 dat (anchor + 24) ∧
     (resolveLayout dat anchor).sample_offset = anchor + read_s32 dat (anchor + 28)) ∧
    ((resolveLayout dat anchor).song_len =
        (resolveLayout dat anchor).over_offset - (resolveLayout dat anchor).song_offset ∧
     (resolveLayout dat anchor).over_len =
        (resolveLayout dat anchor).note_offset - (resolveLayout dat anchor).over_offset ∧
     (resolveLayout dat anchor).note_len =
        (resolveLayout dat anchor).instr_offset - (resolveLayout dat anchor).note_offset ∧
     (resolveLayout dat anchor).instr_len =
        (resolveLayout dat anchor).wave_offset - (resolveLayout dat anchor).instr_offset ∧
     (resolveLayout dat anchor).wave_len =
        (resolveLayout dat anchor).adsr_offset - (resolveLayout dat anchor).wave_offset ∧
     (resolveLayout dat anchor).adsr_len =
        (resolveLayout dat anchor).amf_offset - (resolveLayout dat anchor).adsr_offset ∧
     (resolveLayout dat anchor).amf_len =
        (resolveLayout dat anchor).sample_offset - (resolveLayout dat anchor).amf_offset) ∧
    ((resolveLayout dat anchor).song_cnt = Int.tdiv (resolveLayout dat anchor).song_len 12 ∧
     (resolveLayout dat anchor).over_cnt = Int.tdiv (resolveLayout dat anchor).over_len 16 ∧
     (resolveLayout dat anchor).note_cnt = Int.tdiv (resolveLayout dat anchor).note_len 4 ∧
     (resolveLayout dat anchor).instr_cnt = Int.tdiv (resolveLayout dat anchor).instr_len 152 ∧
     (resolveLayout dat anchor).wave_cnt = Int.tdiv (resolveLayout dat anchor).wave_len 128 ∧
     (resolveLayout dat anchor).adsr_cnt = Int.tdiv (resolveLayout dat anchor).adsr_len 128 ∧
     (resolveLayout dat anchor).amf_cnt = Int.tdiv (resolveLayout dat anchor).amf_len 128) ∧
    (resolveLayout dat anchor).sample_cnt =
      read_s32 dat (resolveLayout dat anchor).sample_offset := by
  refine ⟨⟨?_, rfl, rfl, rfl, rfl, rfl, rfl, rfl⟩,
    ⟨rfl, rfl, rfl, rfl, rfl, rfl, rfl⟩,
    ⟨rfl, rfl, rfl, rfl, rfl, rfl, rfl⟩, rfl⟩
  simp [resolveLayout]

theorem getD_set_self {α : Type} (l : List α) (i : Nat) (a d : α) (h : i < l.length) :
    (l.set i a).getD i d = a := by
  simp [List.getD_eq_getElem?_getD, List.getElem?_set, h]

theorem getD_set_ne {α : Type} (l : List α) (i j : Nat) (a d : α) (h : i ≠ j) :
    (l.set i a).getD j d = l.getD j d := by
  simp [List.getD_eq_getElem?_getD, List.getElem?_set, h]

theorem pass2Step_not_sampled (dat : List Nat) (io sc : Int)
    (st : List sample_info × List Nat) (i : Nat)
    (h : read_u16 dat (io + (i : Int) * 0x98) ≠ 0) :
    pass2Step dat io sc st i = st := by
  simp [pass2Step, h]

theorem pass2Step_invalid (dat : List Nat) (io sc : Int)
    (st : List sample_info × List Nat) (i : Nat)
    (h0 : read_u16 dat (io + (i : Int) * 0x98) = 0)
    (hbad : ¬(0 ≤ toSigned16 (read_u16 dat (io + (i : Int) * 0x98 + 2)) ∧
        toSigned16 (read_u16 dat (io + (i : Int) * 0x98 + 2)) < sc)) :
    pass2Step dat io sc st i = (st.1, st.2 ++ [i]) := by
  simp [pass2Step, h0, hbad]

theorem pass2Step_valid (dat : List Nat) (io sc : Int)
    (st : List sample_info × List Nat) (i : Nat)
    (h0 : read_u16 dat (io + (i : Int) * 0x98) = 0)
    (hok : 0 ≤ toSigned16 (read_u16 dat (io + (i : Int) * 0x98 + 2)) ∧
        toSigned16 (read_u16 dat (io + (i : Int) * 0x98 + 2)) < sc) :
    pass2Step dat io sc st i =
      (st.1.set (toSigned16 (read_u16 dat (io + (i : Int) * 0x98 + 2))).toNat
        (instrWrite dat (io + (i : Int) * 0x98)
          (st.1.getD (toSigned16 (read_u16 dat (io + (i : Int) * 0x98 + 2))).toNat
            sampleInfoInit)), st.2) := by
  simp [pass2Step, h0, hok]

theorem pass2Step_fst_length (dat : List Nat) (io sc : Int)
    (st : List sample_info × List Nat) (i : Nat) :
    (pass2Step dat io sc st i).1.length = st.1.length := by
  by_cases h0 : read_u16 dat (io + (i : Int) * 0x98) = 0
  · by_cases hok : 0 ≤ toSigned16 (read_u16 dat (io + (i : Int) * 0x98 + 2)) ∧
        toSigned16 (read_u16 dat (io + (i : Int) * 0x98 + 2)) < sc
    · rw [pass2Step_valid dat io sc st i h0 hok]; simp
    · rw [pass2Step_invalid dat io sc st i h0 hok]
  · rw [pass2Step_not_sampled dat io sc st i h0]

theorem pass2_foldl_length (dat : List Nat) (io sc : Int) (idxs : List Nat) :
    ∀ st : List sample_info × List Nat,
      (idxs.foldl (pass2Step dat io sc) st).1.length = st.1.length := by
  induction idxs with
  | nil => intro st; rfl
  | cons i is ih =>
    intro st
    rw [List.foldl_cons, ih, pass2Step_fst_length]

theorem pass2Step_getD_of_not_writesTo (dat : List Nat) (io sc : Int)
    (st : List sample_info × List Nat) (i k : Nat)
    (h : ¬ writesTo dat io sc i k) :
    (pass2Step dat io sc st i).1.getD k sampleInfoInit = st.1.getD k sampleInfoInit := by
  by_cases h0 : read_u16 dat (io + (i : Int) * 0x98) = 0
  · by_cases hok : 0 ≤ toSigned16 (read_u16 dat (io + (i : Int) * 0x98 + 2)) ∧
        toSigned16 (read_u16 dat (io + (i : Int) * 0x98 + 2)) < sc
    · rw [pass2Step_valid dat io sc st i h0 hok]
      have hne : (toSigned16 (read_u16 dat (io + (i : Int) * 0x98 + 2))).toNat ≠ k :=
        fun he => h ⟨h0, hok.1, hok.2, he⟩
      exact getD_set_ne _ _ _ _ _ hne
    · rw [pass2Step_invalid dat io sc st i h0 hok]
  · rw [pass2Step_not_sampled dat io sc st i h0]

theorem pass2Step_getD_of_writesTo (dat : List Nat) (io sc : Int)
    (st : List sample_info × List Nat) (i k : Nat)
    (h : writesTo dat io sc i k) (hk : k < st.1.length) :
    (pass2Step dat io sc st i).1.getD k sampleInfoInit =
      instrWrite dat (io + (i : Int) * 0x98) (st.1.getD k sampleInfoInit) := by
  obtain ⟨h0, h1, h2, h3⟩ := h
  rw [pass2Step_valid dat io sc st i h0 ⟨h1, h2⟩, h3]
  exact getD_set_self _ _ _ _ hk

theorem pass2_foldl_getD_of_no_writer (dat : List Nat) (io sc : Int) (k : Nat)
    (idxs : List Nat) :
    ∀ st : List sample_info × List Nat, (∀ i ∈ idxs, ¬ writesTo dat io sc i k) →
      (idxs.foldl (pass2Step dat io sc) st).1.getD k sampleInfoInit =
        st.1.getD k sampleInfoInit := by
  induction idxs with
  | nil => intro st h; rfl
  | cons i is ih =>
    intro st h
    rw [List.foldl_cons, ih _ (fun j hj => h j (List.mem_cons_of_mem _ hj)),
      pass2Step_getD_of_not_writesTo dat io sc st i k (h i (List.mem_cons_self _ _))]

theorem pass2_foldl_getD_last_writer (dat : List Nat) (io sc : Int) (k : Nat) :
    ∀ n j : Nat, j < n → writesTo dat io sc j k →
      (∀ j', j < j' → j' < n → ¬ writesTo dat io sc j' k) →
      ∀ st : List sample_info × List Nat, k < st.1.length →
        ∃ e₀, ((List.range n).foldl (pass2Step dat io sc) st).1.getD k sampleInfoInit =
          instrWrite dat (io + (j : Int) * 0x98) e₀ := by
  intro n
  induction n with
  | zero => intro j hj; exact absurd hj (Nat.not_lt_zero j)
  | succ m ih =>
    intro j hj hw hlast st hk
    rw [List.range_succ, List.foldl_append, List.foldl_cons, List.foldl_nil]
    by_cases hjm : j = m
    · subst hjm
      have hk' : k < ((List.range j).foldl (pass2Step dat io sc) st).1.length := by
        rw [pass2_foldl_length]; exact hk
      exact ⟨_, pass2Step_getD_of_writesTo dat io sc _ j k hw hk'⟩
    · have hnm : ¬ writesTo dat io sc m k := hlast m (by omega) (by omega)
      rw [pass2Step_getD_of_not_writesTo dat io sc _ m k hnm]
      exact ih j (by omega) hw (fun j' h1 h2 => hlast j' h1 (by omega)) st hk

theorem pass1_length (dat : List Nat) (so sc : Int) :
    (pass1 dat so sc).1.length = sc.toNat := by
  simp [pass1]

theorem pass1_entries_name (dat : List Nat) (so sc : Int) (e : sample_info)
    (h : e ∈ (pass1 dat so sc).1) : e.name_from_instr = none := by
  simp only [pass1, List.mem_map] at h
  obtain ⟨i, hi, he⟩ := h
  rw [← he]
  rfl

theorem pass1_getD_name (dat : List Nat) (so sc : Int) (k : Nat) :
    ((pass1 dat so sc).1.getD k sampleInfoInit).name_from_instr = none := by
  rcases lt_or_ge k ((pass1 dat so sc).1.length) with h | h
  · rw [List.getD_eq_getElem _ _ h]
    exact pass1_entries_name dat so sc _ (List.getElem_mem h)
  · rw [List.getD_eq_default _ _ h]
    rfl

/-- C4: with exactly one sampled-instrument record (discriminant 0 at
record offset 0) in the table, whose sample index lies in
`[0, sample_count)`, the joiner sets that sample's
`length_from_instr` to the 2-byte value at the record's offset 4, its
`repeat_from_instr` to the 2-byte value at offset 6, and its name
view to exactly the 30 bytes at the record's offset 0x7a. -/
theorem joiner_single_sampled (dat : List Nat) (instr_offset sample_offset sample_cnt : Int)
    (n i0 : Nat) (hi : i0 < n)
    (hdisc : read_u16 dat (instr_offset + (i0 : Int) * 0x98) = 0)
    (hlo : 0 ≤ toSigned16 (read_u16 dat (instr_offset + (i0 : Int) * 0x98 + 2)))
    (hhi : toSigned16 (read_u16 dat (instr_offset + (i0 : Int) * 0x98 + 2)) < sample_cnt)
    (honly : ∀ j, j < n → j ≠ i0 → read_u16 dat (instr_offset + (j : Int) * 0x98) ≠ 0) :
    ((pass2 dat instr_offset sample_cnt (List.range n)
        (pass1 dat sample_offset sample_cnt).1).1.getD
          (toSigned16 (read_u16 dat (instr_offset + (i0 : Int) * 0x98 + 2))).toNat
          sampleInfoInit).length_from_instr =
      (read_u16 dat (instr_offset + (i0 : Int) * 0x98 + 4) : Int) ∧
    ((pass2 dat instr_offset sample_cnt (List.range n)
        (pass1 dat sample_offset sample_cnt).1).1.getD
          (toSigned16 (read_u16 dat (instr_offset + (i0 : Int) * 0x98 + 2))).toNat
          sampleInfoInit).repeat_from_instr =
      (read_u16 dat (instr_offset + (i0 : Int) * 0x98 + 6) : Int) ∧
    nameView dat ((pass2 dat instr_offset sample_cnt (List.range n)
        (pass1 dat sample_offset sample_cnt).1).1.getD
          (toSigned16 (read_u16 dat (instr_offset + (i0 : Int) * 0x98 + 2))).toNat
          sampleInfoInit) =
      some (extract dat (instr_offset + (i0 : Int) * 0x98 + 0x7a) 30) := by
  have hw : writesTo dat instr_offset sample_cnt i0
      (toSigned16 (read_u16 dat (instr_offset + (i0 : Int) * 0x98 + 2))).toNat :=
    ⟨hdisc, hlo, hhi, rfl⟩
  have hlast : ∀ j', i0 < j' → j' < n →
      ¬ writesTo dat instr_offset sample_cnt j'
        (toSigned16 (read_u16 dat (instr_offset + (i0 : Int) * 0x98 + 2))).toNat :=
    fun j' h1 h2 hwj => honly j' h2 (by omega) hwj.1
  have hk : (toSigned16 (read_u16 dat (instr_offset + (i0 : Int) * 0x98 + 2))).toNat <
      ((pass1 dat sample_offset sample_cnt).1, ([] : List Nat)).1.length := by
    have := pass1_length dat sample_offset sample_cnt
    simp only [this]
    omega
  obtain ⟨e₀, he⟩ := pass2_foldl_getD_last_writer dat instr_offset sample_cnt
    (toSigned16 (read_u16 dat (instr_offset + (i0 : Int) * 0x98 + 2))).toNat
    n i0 hi hw hlast ((pass1 dat sample_offset sample_cnt).1, []) hk
  simp only [pass2]
  rw [he]
  exact ⟨rfl, rfl, rfl⟩

/-- Witness for C4 on a concrete 152-byte instrument table: one
sampled instrument referencing sample 0 with length word 5 and repeat
word 7 and a name field of 30 bytes of value 65. -/
theorem joiner_single_sampled_witness :
    ((pass2 ([0, 0, 0, 0, 0, 5, 0, 7] ++ List.replicate 114 0 ++ List.replicate 30 65)
        0 1 (List.range 1)
        (pass1 ([0, 0, 0, 0, 0, 5, 0, 7] ++ List.replicate 114 0 ++ List.replicate 30 65)
          152 1).1).1.getD 0 sampleInfoInit).length_from_instr = 5 := by
  have h := joiner_single_sampled
    ([0, 0, 0, 0, 0, 5, 0, 7] ++ List.replicate 114 0 ++ List.replicate 30 65)
    0 152 1 1 0 (by decide) (by decide) (by decide) (by decide)
    (fun j hj hne => absurd (by omega : j = 0) hne)
  have h0 : (toSigned16 (read_u16
      ([0, 0, 0, 0, 0, 5, 0, 7] ++ List.replicate 114 0 ++ List.replicate 30 65)
      (0 + (0 : Nat) * 0x98 + 2))).toNat = 0 := by decide
  rw [h0] at h
  rw [h.1]
  decide

/-- C5: when several sampled-instrument records reference the same
in-range sample index, the record processed later in instrument-table
order wins: the final entry carries the later record's length, repeat
and name values. -/
theorem joiner_last_writer_wins (dat : List Nat)
    (instr_offset sample_offset sample_cnt : Int) (n i1 i2 k : Nat)
    (h12 : i1 < i2) (h2n : i2 < n)
    (hw1 : writesTo dat instr_offset sample_cnt i1 k)
    (hw2 : writesTo dat instr_offset sample_cnt i2 k)
    (hlast : ∀ j, i2 < j → j < n → ¬ writesTo dat instr_offset sample_cnt j k) :
    ((pass2 dat instr_offset sample_cnt (List.range n)
        (pass1 dat sample_offset sample_cnt).1).1.getD k sampleInfoInit).length_from_instr =
      (read_u16 dat (instr_offset + (i2 : Int) * 0x98 + 4) : Int) ∧
    ((pass2 dat instr_offset sample_cnt (List.range n)
        (pass1 dat sample_offset sample_cnt).1).1.getD k sampleInfoInit).repeat_from_instr =
      (read_u16 dat (instr_offset + (i2 : Int) * 0x98 + 6) : Int) ∧
    nameView dat ((pass2 dat instr_offset sample_cnt (List.range n)
        (pass1 dat sample_offset sample_cnt).1).1.getD k sampleInfoInit) =
      some (extract dat (instr_offset + (i2 : Int) * 0x98 + 0x7a) 30) := by
  have hk : k < ((pass1 dat sample_offset sample_cnt).1, ([] : List Nat)).1.length := by
    obtain ⟨h0, h1, h2, h3⟩ := hw2
    have := pass1_length dat sample_offset sample_cnt
    simp only [this]
    omega
  obtain ⟨e₀, he⟩ := pass2_foldl_getD_last_writer dat instr_offset sample_cnt k
    n i2 h2n hw2 hlast ((pass1 dat sample_offset sample_cnt).1, []) hk
  simp only [pass2]
  rw [he]
  exact ⟨rfl, rfl, rfl⟩

theorem pass2Step_snd_mono (dat : List Nat) (io sc : Int)
    (st : List sample_info × List Nat) (i : Nat) :
    ∃ s, (pass2Step dat io sc st i).2 = st.2 ++ s := by
  by_cases h0 : read_u16 dat (io + (i : Int) * 0x98) = 0
  · by_cases hok : 0 ≤ toSigned16 (read_u16 dat (io + (i : Int) * 0x98 + 2)) ∧
        toSigned16 (read_u16 dat (io + (i : Int) * 0x98 + 2)) < sc
    · exact ⟨[], by rw [pass2Step_valid dat io sc st i h0 hok]; simp⟩
    · exact ⟨[i], by rw [pass2Step_invalid dat io sc st i h0 hok]⟩
  · exact ⟨[], by rw [pass2Step_not_sampled dat io sc st i h0]; simp⟩

theorem pass2_foldl_snd_mono (dat : List Nat) (io sc : Int) (idxs : List Nat) :
    ∀ st : List sample_info × List Nat,
      ∃ s, (idxs.foldl (pass2Step dat io sc) st).2 = st.2 ++ s := by
  induction idxs with
  | nil => intro st; exact ⟨[], by simp⟩
  | cons i is ih =>
    intro st
    rw [List.foldl_cons]
    obtain ⟨s1, hs1⟩ := pass2Step_snd_mono dat io sc st i
    obtain ⟨s2, hs2⟩ := ih (pass2Step dat io sc st i)
    exact ⟨s1 ++ s2, by rw [hs2, hs1, List.append_assoc]⟩

theorem pass2Step_fst_congr (dat : List Nat) (io sc : Int)
    (st st' : List sample_info × List Nat) (i : Nat) (h : st.1 = st'.1) :
    (pass2Step dat io sc st i).1 = (pass2Step dat io sc st' i).1 := by
  by_cases h0 : read_u16 dat (io + (i : Int) * 0x98) = 0
  · by_cases hok : 0 ≤ toSigned16 (read_u16 dat (io + (i : Int) * 0x98 + 2)) ∧
        toSigned16 (read_u16 dat (io + (i : Int) * 0x98 + 2)) < sc
    · rw [pass2Step_valid dat io sc st i h0 hok, pass2Step_valid dat io sc st' i h0 hok, h]
    · rw [pass2Step_invalid dat io sc st i h0 hok, pass2Step_invalid dat io sc st' i h0 hok, h]
  · rw [pass2Step_not_sampled dat io sc st i h0, pass2Step_not_sampled dat io sc st' i h0, h]

theorem pass2_foldl_fst_congr (dat : List Nat) (io sc : Int) (idxs : List Nat) :
    ∀ st st' : List sample_info × List Nat, st.1 = st'.1 →
      (idxs.foldl (pass2Step dat io sc) st).1 = (idxs.foldl (pass2Step dat io sc) st').1 := by
  induction idxs with
  | nil => intro st st' h; exact h
  | cons i is ih =>
    intro st st' h
    rw [List.foldl_cons, List.foldl_cons]
    exact ih _ _ (pass2Step_fst_congr dat io sc st st' i h)

theorem range_split (n i : Nat) (hi : i < n) :
    List.range n = List.range i ++ i :: (List.range (n - (i + 1))).map (fun x => (i + 1) + x) := by
  have h1 : n = (i + 1) + (n - (i + 1)) := by omega
  conv_lhs => rw [h1]
  rw [List.range_add, List.range_succ, List.append_assoc, List.singleton_append]

/-- C6: an instrument record with discriminant 0 whose sample index
falls outside `[0, sample_count)` is reported (its index joins the
error list), leaves every `sample_info` entry untouched, and the loop
carries on: the joined entries equal those obtained by processing all
other records. -/
theorem joiner_invalid_index (dat : List Nat)
    (instr_offset sample_offset sample_cnt : Int) (n i : Nat) (hi : i < n)
    (hdisc : read_u16 dat (instr_offset + (i : Int) * 0x98) = 0)
    (hbad : ¬(0 ≤ toSigned16 (read_u16 dat (instr_offset + (i : Int) * 0x98 + 2)) ∧
        toSigned16 (read_u16 dat (instr_offset + (i : Int) * 0x98 + 2)) < sample_cnt)) :
    i ∈ (pass2 dat instr_offset sample_cnt (List.range n)
        (pass1 dat sample_offset sample_cnt).1).2 ∧
    (∀ st : List sample_info × List Nat,
      (pass2Step dat instr_offset sample_cnt st i).1 = st.1) ∧
    (pass2 dat instr_offset sample_cnt (List.range n)
        (pass1 dat sample_offset sample_cnt).1).1 =
      (((List.range n).filter (fun j => j != i)).foldl
        (pass2Step dat instr_offset sample_cnt)
        ((pass1 dat sample_offset sample_cnt).1, [])).1 := by
  have hfilter : (List.range n).filter (fun j => j != i) =
      List.range i ++ (List.range (n - (i + 1))).map (fun x => (i + 1) + x) := by
    rw [range_split n i hi, List.filter_append, List.filter_cons]
    have hii : ((i != i) = true) = False := by simp
    rw [if_neg (by simp)]
    have hA : (List.range i).filter (fun j => j != i) = List.range i := by
      rw [List.filter_eq_self]
      intro a ha
      rw [List.mem_range] at ha
      simp only [bne_iff_ne]
      omega
    have hB : ((List.range (n - (i + 1))).map (fun x => (i + 1) + x)).filter
        (fun j => j != i) = (List.range (n - (i + 1))).map (fun x => (i + 1) + x) := by
      rw [List.filter_eq_self]
      intro a ha
      rw [List.mem_map] at ha
      obtain ⟨x, hx, hxa⟩ := ha
      simp only [bne_iff_ne]
      omega
    rw [hA, hB]
  refine ⟨?_, ?_, ?_⟩
  · simp only [pass2]
    rw [range_split n i hi, List.foldl_append, List.foldl_cons]
    rw [pass2Step_invalid dat instr_offset sample_cnt _ i hdisc hbad]
    obtain ⟨s, hs⟩ := pass2_foldl_snd_mono dat instr_offset sample_cnt
      ((List.range (n - (i + 1))).map (fun x => (i + 1) + x))
      ((((List.range i).foldl (pass2Step dat instr_offset sample_cnt)
        ((pass1 dat sample_offset sample_cnt).1, [])).1,
        ((List.range i).foldl (pass2Step dat instr_offset sample_cnt)
        ((pass1 dat sample_offset sample_cnt).1, [])).2 ++ [i]))
    rw [hs]
    simp
  · intro st
    rw [pass2Step_invalid dat instr_offset sample_cnt st i hdisc hbad]
  · simp only [pass2]
    rw [hfilter, range_split n i hi, List.foldl_append, List.foldl_cons, List.foldl_append]
    apply pass2_foldl_fst_congr
    rw [pass2Step_invalid dat instr_offset sample_cnt _ i hdisc hbad]

/-- Witness for C6: a single instrument record with discriminant 0
and sample id 5 against a sample count of 1; the record index 0 is
reported and the joined entries are those of processing no records. -/
theorem joiner_invalid_index_witness :
    0 ∈ (pass2 ([0, 0, 0, 5] ++ List.replicate 148 0) 0 1 (List.range 1)
        (pass1 ([0, 0, 0, 5] ++ List.replicate 148 0) 152 1).1).2 ∧
    (∀ st : List sample_info × List Nat,
      (pass2Step ([0, 0, 0, 5] ++ List.replicate 148 0) 0 1 st 0).1 = st.1) ∧
    (pass2 ([0, 0, 0, 5] ++ List.replicate 148 0) 0 1 (List.range 1)
        (pass1 ([0, 0, 0, 5] ++ List.replicate 148 0) 152 1).1).1 =
      (((List.range 1).filter (fun j => j != 0)).foldl
        (pass2Step ([0, 0, 0, 5] ++ List.replicate 148 0) 0 1)
        ((pass1 ([0, 0, 0, 5] ++ List.replicate 148 0) 152 1).1, [])).1 :=
  joiner_invalid_index ([0, 0, 0, 5] ++ List.replicate 148 0) 0 152 1 1 0
    (by decide) (by decide) (by decide)

/-- Witness for C5 on a 304-byte table of two sampled-instrument
records, both referencing sample 0; the second record's length word 8
wins over the first record's 3. -/
theorem joiner_last_writer_wins_witness :
    ((pass2 ([0, 0, 0, 0, 0, 3, 0, 4] ++ List.replicate 114 0 ++ List.replicate 30 10 ++
        ([0, 0, 0, 0, 0, 8, 0, 9] ++ List.replicate 114 0 ++ List.replicate 30 11))
        0 1 (List.range 2)
        (pass1 ([0, 0, 0, 0, 0, 3, 0, 4] ++ List.replicate 114 0 ++ List.replicate 30 10 ++
          ([0, 0, 0, 0, 0, 8, 0, 9] ++ List.replicate 114 0 ++ List.replicate 30 11))
          304 1).1).1.getD 0 sampleInfoInit).length_from_instr = 8 := by
  have h := joiner_last_writer_wins
    ([0, 0, 0, 0, 0, 3, 0, 4] ++ List.replicate 114 0 ++ List.replicate 30 10 ++
      ([0, 0, 0, 0, 0, 8, 0, 9] ++ List.replicate 114 0 ++ List.replicate 30 11))
    0 304 1 2 0 1 0 (by decide) (by decide) (by decide) (by decide)
    (fun j h1 h2 => absurd (by omega : (2 : Nat) ≤ 1) (by omega))
  rw [h.1]
  decide

theorem bytes32_length (v : Int) : (bytes32 v).length = 4 := rfl

theorem extract_length (dat : List Nat) (off len : Int) (h1 : 0 ≤ off) (h2 : 0 ≤ len)
    (h3 : off.toNat + len.toNat ≤ dat.length) :
    (extract dat off len).length = len.toNat := by
  simp only [extract, List.length_take, List.length_drop]
  omega

theorem flatten_map_length (l : List sample_info) (g : sample_info → List Nat) (c : Nat)
    (h : ∀ e ∈ l, (g e).length = c) : ((l.map g).flatten).length = c * l.length := by
  induction l with
  | nil => simp
  | cons e es ih =>
    simp only [List.map_cons, List.flatten_cons, List.length_append, List.length_cons]
    rw [h e (List.mem_cons_self _ _), ih (fun x hx => h x (List.mem_cons_of_mem _ hx))]
    ring

theorem namesChunk_some_length (dat : List Nat) (entries : List sample_info)
    (h : ∀ e ∈ entries, ∃ p : Int, e.name_from_instr = some p ∧ 0 ≤ p ∧
        p.toNat + 30 ≤ dat.length) :
    ∃ names, namesChunk dat entries = some names ∧ names.length = 30 * entries.length := by
  induction entries with
  | nil => exact ⟨[], rfl, rfl⟩
  | cons e es ih =>
    obtain ⟨p, hp, hp0, hpb⟩ := h e (List.mem_cons_self _ _)
    obtain ⟨rest, hrest, hlen⟩ := ih (fun x hx => h x (List.mem_cons_of_mem _ hx))
    refine ⟨extract dat p 30 ++ rest, ?_, ?_⟩
    · simp [namesChunk, nameView, hp, hrest]
    · rw [List.length_append, hlen,
        extract_length dat p 30 hp0 (by omega) (by simpa using hpb)]
      simp only [List.length_cons]
      omega

/-- C1: when every name pointer resolves (the input was successfully
located and the join populated every referenced entry), the writer
emits exactly the byte sequence the specification lists: the
"SOARV1.0" magic, then the song/overview/note/instrument sections as
tag + count + raw bytes, then the "SD8B" sample section with the four
parallel per-sample arrays followed by the raw payload, then the
wave/ADSR/AMF sections, and finally the "EDATV1.1" tag with its fixed
16-byte payload. -/
theorem writer_emits_spec_layout (dat : List Nat) (L : Layout) (entries : List sample_info)
    (sample_len : Int) (names : List Nat)
    (h : namesChunk dat entries = some names) :
    writeOutput dat L entries sample_len =
      some (writerSpecOutput dat L entries names sample_len) := by
  simp only [writeOutput, sampleSection, h]
  simp [writerSpecOutput, taggedSection, List.append_assoc]

/-- Witness for C1 at the degenerate concrete input of an empty
buffer, the layout resolved from it, and no samples. -/
theorem writer_emits_spec_layout_witness :
    writeOutput [] (resolveLayout [] 0) [] 0 =
      some (writerSpecOutput [] (resolveLayout [] 0) [] [] 0) :=
  writer_emits_spec_layout [] (resolveLayout [] 0) [] 0 [] (by decide)

/-- C8: a non-sample tagged section occupies 8 bytes of framing plus
the section's byte length; the sample section occupies
`8 + 8*sample_cnt + 30*sample_cnt + 4*sample_cnt + sample_len` bytes,
where `sample_len` is the sum of the per-sample raw lengths gathered
by pass 1. -/
theorem emitted_byte_counts (dat tag : List Nat) (cnt off len : Int)
    (sample_cnt sample_offset sample_len : Int) (entries : List sample_info)
    (htag : tag.length = 4)
    (hoff : 0 ≤ off) (hlen : 0 ≤ len) (hbound : off.toNat + len.toNat ≤ dat.length)
    (hecnt : entries.length = sample_cnt.toNat)
    (hnames : ∀ e ∈ entries, ∃ p : Int, e.name_from_instr = some p ∧ 0 ≤ p ∧
        p.toNat + 30 ≤ dat.length)
    (hpo : 0 ≤ sample_offset + 4 + sample_cnt * 4) (hpl : 0 ≤ sample_len)
    (hpb : (sample_offset + 4 + sample_cnt * 4).toNat + sample_len.toNat ≤ dat.length) :
    (taggedSection dat tag cnt off len).length = 8 + len.toNat ∧
    (∃ smp, sampleSection dat sample_cnt entries sample_offset sample_len = some smp ∧
      smp.length = 8 + 8 * sample_cnt.toNat + 30 * sample_cnt.toNat +
        4 * sample_cnt.toNat + sample_len.toNat) ∧
    (pass1 dat sample_offset sample_cnt).2 =
      ((pass1 dat sample_offset sample_cnt).1.map sample_info.length).sum := by
  refine ⟨?_, ?_, rfl⟩
  · simp only [taggedSection, List.length_append, bytes32_length, htag,
      extract_length dat off len hoff hlen hbound]
  · obtain ⟨names, hn, hnl⟩ := namesChunk_some_length dat entries hnames
    refine ⟨SD8B_ID ++ bytes32 sample_cnt
      ++ ((entries.map fun e => bytes32 e.length_from_instr).flatten)
      ++ ((entries.map fun e => bytes32 e.repeat_from_instr).flatten)
      ++ names
      ++ ((entries.map fun e => bytes32 e.length).flatten)
      ++ extract dat (sample_offset + 4 + sample_cnt * 4) sample_len, ?_, ?_⟩
    · simp only [sampleSection, hn]
    · simp only [List.length_append, bytes32_length, hnl, hecnt,
        flatten_map_length entries (fun e => bytes32 e.length_from_instr) 4
          (fun e he => bytes32_length _),
        flatten_map_length entries (fun e => bytes32 e.repeat_from_instr) 4
          (fun e he => bytes32_length _),
        flatten_map_length entries (fun e => bytes32 e.length) 4
          (fun e he => bytes32_length _),
        extract_length dat _ sample_len hpo hpl hpb]
      have hsd : SD8B_ID.length = 4 := rfl
      rw [hsd]
      omega

/-- Witness for C8 on a 64-byte zero buffer: a 12-byte section framed
as 20 bytes, and a one-sample section totalling 8 + 8 + 30 + 4 + 2
bytes. -/
theorem emitted_byte_counts_witness :
    (taggedSection (List.replicate 64 0) STBL_ID 0 0 12).length = 8 + (12 : Int).toNat ∧
    (∃ smp, sampleSection (List.replicate 64 0) 1
        [{ length := 2, length_from_instr := 0, repeat_from_instr := 0,
           name_from_instr := some 0 }] 0 2 = some smp ∧
      smp.length = 8 + 8 * (1 : Int).toNat + 30 * (1 : Int).toNat +
        4 * (1 : Int).toNat + (2 : Int).toNat) ∧
    (pass1 (List.replicate 64 0) 0 1).2 =
      ((pass1 (List.replicate 64 0) 0 1).1.map sample_info.length).sum := by
  have h := emitted_byte_counts (List.replicate 64 0) STBL_ID 0 0 12 1 0 2
    [{ length := 2, length_from_instr := 0, repeat_from_instr := 0,
       name_from_instr := some 0 }]
    (by decide) (by decide) (by decide) (by decide) (by decide)
    (by
      intro e he
      rw [List.mem_singleton] at he
      subst he
      exact ⟨0, rfl, le_refl 0, by decide⟩)
    (by decide) (by decide) (by decide)
  exact h

theorem writeOutput_eq_none_iff (dat : List Nat) (L : Layout) (entries : List sample_info)
    (sample_len : Int) :
    writeOutput dat L entries sample_len = none ↔ namesChunk dat entries = none := by
  rcases h : namesChunk dat entries with _ | names
  · simp [writeOutput, sampleSection, h]
  · simp [writeOutput, sampleSection, h]

theorem namesChunk_eq_none_iff (dat : List Nat) (entries : List sample_info) :
    namesChunk dat entries = none ↔ ∃ e ∈ entries, e.name_from_instr = none := by
  induction entries with
  | nil => simp [namesChunk]
  | cons e es ih =>
    rcases hn : e.name_from_instr with _ | p
    · constructor
      · intro _
        exact ⟨e, List.mem_cons_self _ _, hn⟩
      · intro _
        simp [namesChunk, nameView, hn]
    · rcases hr : namesChunk dat es with _ | rest
      · constructor
        · intro _
          obtain ⟨x, hx, hxn⟩ := ih.mp hr
          exact ⟨x, List.mem_cons_of_mem _ hx, hxn⟩
        · intro _
          simp [namesChunk, nameView, hn, hr]
      · constructor
        · intro hcontra
          rw [show namesChunk dat (e :: es) = some (extract dat p 30 ++ rest) from by
            simp [namesChunk, nameView, hn, hr]] at hcontra
          exact absurd hcontra (by simp)
        · rintro ⟨x, hx, hxn⟩
          rcases List.mem_cons.mp hx with hxe | hxes
          · subst hxe
            rw [hn] at hxn
            exact absurd hxn (by simp)
          · have hes : namesChunk dat es = none := ih.mpr ⟨x, hxes, hxn⟩
            rw [hes] at hr
            exact absurd hr (by simp)

theorem pass2_name_some_of_writer (dat : List Nat) (io sc : Int) (k : Nat) :
    ∀ n : Nat, (∃ j, j < n ∧ writesTo dat io sc j k) →
      ∀ st : List sample_info × List Nat, k < st.1.length →
      ∃ q, (((List.range n).foldl (pass2Step dat io sc) st).1.getD k
        sampleInfoInit).name_from_instr = some q := by
  intro n
  induction n with
  | zero => rintro ⟨j, hj, _⟩; exact absurd hj (Nat.not_lt_zero j)
  | succ m ih =>
    rintro ⟨j, hj, hwj⟩ st hk
    rw [List.range_succ, List.foldl_append, List.foldl_cons, List.foldl_nil]
    by_cases hm : writesTo dat io sc m k
    · have hk' : k < ((List.range m).foldl (pass2Step dat io sc) st).1.length := by
        rw [pass2_foldl_length]; exact hk
      rw [pass2Step_getD_of_writesTo dat io sc _ m k hm hk']
      exact ⟨_, rfl⟩
    · rw [pass2Step_getD_of_not_writesTo dat io sc _ m k hm]
      have hjm : j < m := by
        rcases Nat.lt_succ_iff_lt_or_eq.mp hj with h | h
        · exact h
        · rw [h] at hwj; exact absurd hwj hm
      exact ih ⟨j, hjm, hwj⟩ st hk

theorem joined_length (dat : List Nat) (io so sc : Int) (n : Nat) :
    (pass2 dat io sc (List.range n) (pass1 dat so sc).1).1.length = sc.toNat := by
  simp only [pass2]
  rw [pass2_foldl_length dat io sc (List.range n) ((pass1 dat so sc).1, [])]
  exact pass1_length dat so sc

/-- C10: the writer's 30-byte name write reads from a valid view only
for sample entries some valid sampled instrument referenced; an index
in `[0, sample_count)` referenced by no such record keeps the
zero-initialised null name pointer from `memset`, and the name loop
then dereferences that null pointer (modelled as the writer producing
`none`): the name-array write is safe only when every sample index is
referenced. -/
theorem writer_name_null_iff (dat : List Nat)
    (instr_offset sample_offset sample_cnt sample_len : Int) (n : Nat) (L : Layout) :
    (writeOutput dat L
        (pass2 dat instr_offset sample_cnt (List.range n)
          (pass1 dat sample_offset sample_cnt).1).1 sample_len = none ↔
      namesChunk dat (pass2 dat instr_offset sample_cnt (List.range n)
        (pass1 dat sample_offset sample_cnt).1).1 = none) ∧
    (namesChunk dat (pass2 dat instr_offset sample_cnt (List.range n)
        (pass1 dat sample_offset sample_cnt).1).1 = none ↔
      ∃ k, k < sample_cnt.toNat ∧
        ((pass2 dat instr_offset sample_cnt (List.range n)
          (pass1 dat sample_offset sample_cnt).1).1.getD k
            sampleInfoInit).name_from_instr = none) ∧
    (∀ k, k < sample_cnt.toNat →
      (((pass2 dat instr_offset sample_cnt (List.range n)
          (pass1 dat sample_offset sample_cnt).1).1.getD k
            sampleInfoInit).name_from_instr = none ↔
        ∀ j, j < n → ¬ writesTo dat instr_offset sample_cnt j k)) := by
  have hlen : (pass2 dat instr_offset sample_cnt (List.range n)
      (pass1 dat sample_offset sample_cnt).1).1.length = sample_cnt.toNat :=
    joined_length dat instr_offset sample_offset sample_cnt n
  refine ⟨writeOutput_eq_none_iff dat L _ sample_len, ?_, ?_⟩
  · rw [namesChunk_eq_none_iff]
    constructor
    · rintro ⟨e, he, hen⟩
      obtain ⟨k, hk, hke⟩ := List.mem_iff_getElem.mp he
      refine ⟨k, by rw [← hlen]; exact hk, ?_⟩
      rw [List.getD_eq_getElem _ _ hk, hke]
      exact hen
    · rintro ⟨k, hk, hkn⟩
      have hk' : k < (pass2 dat instr_offset sample_cnt (List.range n)
          (pass1 dat sample_offset sample_cnt).1).1.length := by
        rw [hlen]; exact hk
      refine ⟨_, List.getElem_mem hk', ?_⟩
      rw [← List.getD_eq_getElem _ sampleInfoInit hk']
      exact hkn
  · intro k hk
    constructor
    · intro hnone j hj hw
      have hk' : k < ((pass1 dat sample_offset sample_cnt).1, ([] : List Nat)).1.length := by
        show k < (pass1 dat sample_offset sample_cnt).1.length
        rw [pass1_length]
        exact hk
      obtain ⟨q, hq⟩ := pass2_name_some_of_writer dat instr_offset sample_cnt k n
        ⟨j, hj, hw⟩ ((pass1 dat sample_offset sample_cnt).1, ([] : List Nat)) hk'
      simp only [pass2] at hnone
      rw [hq] at hnone
      exact absurd hnone (by simp)
    · intro hno
      simp only [pass2]
      rw [pass2_foldl_getD_of_no_writer dat instr_offset sample_cnt k (List.range n) _
        (fun i hi => hno i (List.mem_range.mp hi))]
      exact pass1_getD_name dat sample_offset sample_cnt k

set_option maxRecDepth 4000

/-- C7 fails on this code: the source computes section lengths as raw
differences and never checks them (the `// TODO Check offsets for
buffer overflow` comment at line 133 admits it).  On `badBuf` the
overview length resolves to the negative value -4, yet the conversion
still produces output instead of failing with a `LayoutError`; in C
the negative length is passed to `fwrite` as a huge unsigned size. -/
theorem negative_length_not_rejected :
    (resolveLayout badBuf 0).over_len = -4 ∧
    (convert 234 234 badBuf).song_found = true ∧
    ((convert 234 234 badBuf).output).isSome = true := by
  decide

/-- C9 fails on this code: with a declared size of 234 bytes but only
200 read, the source selects the "Read failed" diagnostic and then
carries on regardless; the run still locates the song and writes the
same output as a full read. -/
theorem short_read_not_fatal :
    (convert 234 200 testBuf).read_short = true ∧
    (convert 234 200 testBuf).song_found = true ∧
    ((convert 234 200 testBuf).output).isSome = true ∧
    (convert 234 200 testBuf).output = (convert 234 234 testBuf).output := by
  decide
